import Mathlib

/-!
Verification of the company-scraper core (utils.py + scraper.py) against its
natural-language specification.  Python functions are shallowly embedded as
Lean functions: strings are handled as `List Char` where character-level
reasoning is needed, regular-expression post-processing loops are embedded
directly, and external effects (HTTP fetches, HTML parsing by BeautifulSoup)
are abstracted as oracle fields of an `Env` structure.
-/

/-- Python whitespace class `\s` (ASCII part, which is all that the scraped
text and the embedded patterns use). -/
def pyIsSpace (c : Char) : Bool :=
  c = ' ' || c = '\t' || c = '\n' || c = '\r' || c = '\x0b' || c = '\x0c'

/-- The digit-level part of `utils.validate_russian_phone` (utils.py lines
8-40), applied to the digit-stripped input: require exactly 11 digits,
rewrite a leading '8' to '7', reject a leading digit other than '7'/'8',
reject a second digit outside 3..9, and return `'+'` followed by the
(rewritten) digits. -/
def phoneFromDigits : List Char → Option (List Char)
  | d0 :: d1 :: rest =>
    if (d0 :: d1 :: rest).length ≠ 11 then none
    else if d0 ≠ '8' ∧ d0 ≠ '7' then none
    else if d1 ∉ ['3', '4', '5', '6', '7', '8', '9'] then none
    else
      -- `if digits[0] == '8': digits = '7' + digits[1:]`, then `'+' + digits`
      some ('+' :: (if d0 = '8' then '7' :: d1 :: rest else d0 :: d1 :: rest))
  | _ => none  -- fewer than two digits survive stripping: length is not 11

/-- Embedding of `utils.validate_russian_phone` (utils.py lines 8-40):
empty input is rejected, all non-digits are stripped, and the digit-level
checks of `phoneFromDigits` are applied. -/
def validate_russian_phone (s : List Char) : Option (List Char) :=
  if s = [] then none
  else phoneFromDigits (s.filter Char.isDigit)

/-- Embedding of `utils.validate_inn` (utils.py lines 86-105): empty input is
rejected, non-digits are stripped, the remaining length must be 10 or 12, and
the (always true after stripping) all-digits check is kept for fidelity. -/
def validate_inn (s : List Char) : Bool :=
  if s = [] then false
  else
    let inn := s.filter Char.isDigit
    if ¬ (inn.length = 10 ∨ inn.length = 12) then false
    else if ¬ (inn ≠ [] ∧ inn.all Char.isDigit) then false
    else true

/-- Characterization of `validate_russian_phone`: it succeeds exactly on
inputs whose digit-stripped form has 11 digits, starts with '7' or '8', and
has a second digit in 3..9, and then the result is `+7` followed by the last
ten digits. -/
theorem validate_russian_phone_iff (s : List Char) (r : List Char) :
    validate_russian_phone s = some r ↔
      ∃ d0 d1 rest, s.filter Char.isDigit = d0 :: d1 :: rest ∧
        (d0 :: d1 :: rest).length = 11 ∧ (d0 = '7' ∨ d0 = '8') ∧
        d1 ∈ ['3', '4', '5', '6', '7', '8', '9'] ∧
        r = '+' :: '7' :: d1 :: rest := by
  unfold validate_russian_phone
  by_cases hs : s = []
  · simp [hs]
  · simp only [hs, if_false]
    cases hf : s.filter Char.isDigit with
    | nil => simp [phoneFromDigits]
    | cons d0 tl =>
      cases tl with
      | nil => simp [phoneFromDigits]
      | cons d1 rest =>
        simp only [phoneFromDigits]
        by_cases hlen : (d0 :: d1 :: rest).length = 11
        · rw [if_neg (by simp [hlen])]
          by_cases h8 : d0 = '8'
          · subst h8
            by_cases h2 : d1 ∈ ['3', '4', '5', '6', '7', '8', '9']
            · rw [if_neg (by simp), if_neg (not_not_intro h2), if_pos rfl]
              constructor
              · intro hr
                exact ⟨'8', d1, rest, rfl, hlen, Or.inr rfl, h2,
                  (Option.some.inj hr).symm⟩
              · rintro ⟨e0, e1, er, he, -, -, -, hr⟩
                cases he
                exact congrArg some hr.symm
            · rw [if_neg (by simp), if_pos h2]
              apply iff_of_false (by simp)
              rintro ⟨e0, e1, er, he, -, -, h2', -⟩
              cases he
              exact h2 h2'
          · by_cases h7 : d0 = '7'
            · subst h7
              by_cases h2 : d1 ∈ ['3', '4', '5', '6', '7', '8', '9']
              · rw [if_neg (by simp), if_neg (not_not_intro h2), if_neg (by simp)]
                constructor
                · intro hr
                  exact ⟨'7', d1, rest, rfl, hlen, Or.inl rfl, h2,
                    (Option.some.inj hr).symm⟩
                · rintro ⟨e0, e1, er, he, -, -, -, hr⟩
                  cases he
                  exact congrArg some hr.symm
              · rw [if_neg (by simp), if_pos h2]
                apply iff_of_false (by simp)
                rintro ⟨e0, e1, er, he, -, -, h2', -⟩
                cases he
                exact h2 h2'
            · rw [if_pos ⟨h8, h7⟩]
              apply iff_of_false (by simp)
              rintro ⟨e0, e1, er, he, -, hd0, -, -⟩
              cases he
              rcases hd0 with h | h
              · exact h7 h
              · exact h8 h
        · rw [if_pos hlen]
          apply iff_of_false (by simp)
          rintro ⟨e0, e1, er, he, hl, -⟩
          cases he
          exact hlen hl

/-- C5 — `validate_tax_id` (= `validate_inn`) strips non-digit characters and
accepts exactly the inputs whose remaining digit string has length 10 or 12;
in particular "7712345678" is accepted and "771234567" is rejected. -/
theorem validate_inn_length_characterization :
    (∀ s : List Char, validate_inn s = true ↔
        ((s.filter Char.isDigit).length = 10 ∨ (s.filter Char.isDigit).length = 12)) ∧
      validate_inn "7712345678".toList = true ∧
      validate_inn "771234567".toList = false := by
  refine ⟨?_, by decide, by decide⟩
  intro s
  unfold validate_inn
  by_cases hs : s = []
  · simp [hs]
  · simp only [hs, if_false]
    by_cases hlen : (s.filter Char.isDigit).length = 10 ∨ (s.filter Char.isDigit).length = 12
    · have hne : s.filter Char.isDigit ≠ [] := by
        intro h
        rw [h] at hlen
        simp at hlen
      have hall : (s.filter Char.isDigit).all Char.isDigit = true := by
        rw [List.all_eq_true]
        intro x hx
        exact List.of_mem_filter hx
      simp [hlen, hne, hall]
    · simp [hlen]

/-- C6 — `normalize_phone` (= `validate_russian_phone`) succeeds exactly when
the digit-stripped input has 11 digits beginning with '7' or '8' (a leading
'8' being rewritten to '7') and a second digit in 3..9, returning the
canonical "+7" + 10-digit form; the spec's three examples behave as stated. -/
theorem validate_russian_phone_characterization :
    (∀ s r : List Char, validate_russian_phone s = some r ↔
        ∃ d0 d1 rest, s.filter Char.isDigit = d0 :: d1 :: rest ∧
          (d0 :: d1 :: rest).length = 11 ∧ (d0 = '7' ∨ d0 = '8') ∧
          d1 ∈ ['3', '4', '5', '6', '7', '8', '9'] ∧
          r = '+' :: '7' :: d1 :: rest) ∧
      validate_russian_phone "8 (846) 123-45-67".toList = some "+78461234567".toList ∧
      validate_russian_phone "+7 123 456-78-90".toList = none ∧
      validate_russian_phone "123".toList = none := by
  refine ⟨validate_russian_phone_iff, by decide, by decide, by decide⟩

/-- C10 — every successful result of `validate_russian_phone` has exactly 12
characters, starts with "+7", its last 10 characters are decimal digits, and
the first of those ten digits lies in 3..9. -/
theorem validate_russian_phone_shape (s r : List Char)
    (h : validate_russian_phone s = some r) :
    r.length = 12 ∧ r.take 2 = ['+', '7'] ∧ (r.drop 2).length = 10 ∧
      (∀ c ∈ r.drop 2, c.isDigit) ∧
      ∃ d rest, r.drop 2 = d :: rest ∧ d ∈ ['3', '4', '5', '6', '7', '8', '9'] := by
  rcases (validate_russian_phone_iff s r).mp h with ⟨d0, d1, rest, hf, hlen, -, hd1, hr⟩
  subst hr
  have hdig : ∀ c ∈ d1 :: rest, c.isDigit := by
    intro c hc
    have : c ∈ s.filter Char.isDigit := by
      rw [hf]; exact List.mem_cons_of_mem d0 hc
    exact List.of_mem_filter this
  refine ⟨?_, rfl, ?_, ?_, d1, rest, rfl, hd1⟩
  · simp only [List.length_cons] at hlen ⊢
    omega
  · simp only [List.drop_succ_cons, List.drop_zero, List.length_cons]
    simp only [List.length_cons] at hlen
    omega
  · intro c hc
    exact hdig c (by simpa using hc)

/-- One step of the first-occurrence deduplicating accumulation loop used by
both extractors (`if v not in validated: validated.append(v)`). -/
def dedupStep {α : Type} [DecidableEq α] (acc : List α) (x : α) : List α :=
  if x ∈ acc then acc else acc ++ [x]

/-- Loop body of `utils.extract_phones_from_text` (utils.py lines 60-66): the
regex match is normalized, and appended when normalization succeeded with a
non-empty truthy value not already collected. -/
def phoneStep (acc : List (List Char)) (m : List Char) : List (List Char) :=
  match validate_russian_phone m with
  | some n => if n ≠ [] ∧ n ∉ acc then acc ++ [n] else acc
  | none => acc

/-- Embedding of `utils.extract_phones_from_text` (utils.py lines 43-66).
The regular-expression scan is abstracted: `matches` stands for the
concatenated `re.findall` output of the two phone patterns, in match order;
the validation/normalization/deduplication loop is embedded exactly. -/
def extract_phones_from_text (ms : List (List Char)) : List (List Char) :=
  ms.foldl phoneStep []

/-- `str.lower()` on a match of the ASCII email pattern. -/
def lowerL (m : List Char) : List Char := m.map Char.toLower

/-- `email.endswith(('.png', '.jpg', '.gif'))`. -/
def isImageName (e : List Char) : Bool :=
  ".png".toList.reverse.isPrefixOf e.reverse ||
    ".jpg".toList.reverse.isPrefixOf e.reverse ||
    ".gif".toList.reverse.isPrefixOf e.reverse

/-- Loop body of `utils.extract_emails_from_text` (utils.py lines 77-82):
lowercase the match, then append it when it is new and is not an image
filename. -/
def emailStep (acc : List (List Char)) (m : List Char) : List (List Char) :=
  if lowerL m ∉ acc ∧ ¬ isImageName (lowerL m) then acc ++ [lowerL m] else acc

/-- Embedding of `utils.extract_emails_from_text` (utils.py lines 69-83),
with `matches` standing for the `re.findall` output of the email pattern. -/
def extract_emails_from_text (ms : List (List Char)) : List (List Char) :=
  ms.foldl emailStep []

/-- The stream of successfully normalized phone matches, in match order. -/
def phoneStream (ms : List (List Char)) : List (List Char) :=
  ms.filterMap validate_russian_phone

/-- The stream of lowercased non-image email matches, in match order. -/
def emailStream (ms : List (List Char)) : List (List Char) :=
  ms.filterMap fun m => if isImageName (lowerL m) then none else some (lowerL m)

/-- The phone loop is the deduplicating accumulation of `phoneStream`. -/
theorem foldl_phoneStep (ms : List (List Char)) :
    ∀ acc, ms.foldl phoneStep acc = (phoneStream ms).foldl dedupStep acc := by
  induction ms with
  | nil => intro acc; rfl
  | cons m ms ih =>
    intro acc
    cases h : validate_russian_phone m with
    | none =>
      have h1 : List.foldl phoneStep acc (m :: ms) = List.foldl phoneStep acc ms := by
        simp [List.foldl_cons, phoneStep, h]
      have h2 : phoneStream (m :: ms) = phoneStream ms := by
        simp [phoneStream, List.filterMap_cons, h]
      rw [h1, h2]
      exact ih acc
    | some n =>
      have hne : n ≠ [] := by
        rcases (validate_russian_phone_iff m n).mp h with ⟨d0, d1, rest, -, -, -, -, hr⟩
        simp [hr]
      have h2 : phoneStream (m :: ms) = n :: phoneStream ms := by
        simp [phoneStream, List.filterMap_cons, h]
      rw [h2, List.foldl_cons, List.foldl_cons]
      have hstep : phoneStep acc m = dedupStep acc n := by
        by_cases hmem : n ∈ acc
        · simp [phoneStep, h, dedupStep, hmem]
        · simp [phoneStep, h, dedupStep, hmem, hne]
      rw [hstep]
      exact ih (dedupStep acc n)

/-- The email loop is the deduplicating accumulation of `emailStream`. -/
theorem foldl_emailStep (ms : List (List Char)) :
    ∀ acc, ms.foldl emailStep acc = (emailStream ms).foldl dedupStep acc := by
  induction ms with
  | nil => intro acc; rfl
  | cons m ms ih =>
    intro acc
    by_cases himg : isImageName (lowerL m)
    · have h1 : List.foldl emailStep acc (m :: ms) = List.foldl emailStep acc ms := by
        simp [List.foldl_cons, emailStep, himg]
      have h2 : emailStream (m :: ms) = emailStream ms := by
        simp [emailStream, List.filterMap_cons, himg]
      rw [h1, h2]
      exact ih acc
    · have h2 : emailStream (m :: ms) = lowerL m :: emailStream ms := by
        simp [emailStream, List.filterMap_cons, himg]
      rw [h2, List.foldl_cons, List.foldl_cons]
      have hstep : emailStep acc m = dedupStep acc (lowerL m) := by
        by_cases hmem : lowerL m ∈ acc
        · simp [emailStep, dedupStep, hmem, himg]
        · simp [emailStep, dedupStep, hmem, himg]
      rw [hstep]
      exact ih (dedupStep acc (lowerL m))

/-- Index of the first occurrence of `a` in `l` (fixes the `BEq` instance to
the one derived from decidable equality). -/
def firstPos {α : Type} [DecidableEq α] (l : List α) (a : α) : Nat :=
  l.indexOf a

/-- Invariant of the deduplicating accumulation: starting from an accumulator
that deduplicates the already-seen stream `seen` in first-appearance order,
folding the remaining stream `l` yields a duplicate-free list with the same
members as `seen ++ l`, ordered by first appearance in `seen ++ l`. -/
theorem dedupFold_spec {α : Type} [DecidableEq α] (l : List α) :
    ∀ (seen acc : List α), acc.Nodup → (∀ x, x ∈ acc ↔ x ∈ seen) →
      acc.Pairwise (fun a b => firstPos seen a < firstPos seen b) →
      ((l.foldl dedupStep acc).Nodup ∧
        (∀ x, x ∈ l.foldl dedupStep acc ↔ x ∈ seen ++ l) ∧
        (l.foldl dedupStep acc).Pairwise
          (fun a b => firstPos (seen ++ l) a < firstPos (seen ++ l) b)) := by
  induction l with
  | nil =>
    intro seen acc h1 h2 h3
    simpa using ⟨h1, h2, h3⟩
  | cons x l ih =>
    intro seen acc h1 h2 h3
    have hassoc : seen ++ x :: l = (seen ++ [x]) ++ l := by
      rw [List.append_assoc, List.singleton_append]
    rw [hassoc, List.foldl_cons]
    by_cases hmem : x ∈ acc
    · have hxseen : x ∈ seen := (h2 x).mp hmem
      have hstep : dedupStep acc x = acc := if_pos hmem
      rw [hstep]
      refine ih (seen ++ [x]) acc h1 ?_ ?_
      · intro y
        rw [h2 y]
        constructor
        · intro hy; exact List.mem_append_left _ hy
        · intro hy
          rcases List.mem_append.mp hy with hy | hy
          · exact hy
          · rw [List.mem_singleton.mp hy]; exact hxseen
      · refine h3.imp_of_mem ?_
        intro a b ha hb hab
        have ha' : a ∈ seen := (h2 a).mp ha
        have hb' : b ∈ seen := (h2 b).mp hb
        simp only [firstPos] at hab ⊢
        rw [List.indexOf_append_of_mem ha', List.indexOf_append_of_mem hb']
        exact hab
    · have hxseen : x ∉ seen := fun hc => hmem ((h2 x).mpr hc)
      have hstep : dedupStep acc x = acc ++ [x] := if_neg hmem
      rw [hstep]
      refine ih (seen ++ [x]) (acc ++ [x]) ?_ ?_ ?_
      · rw [List.nodup_append]
        exact ⟨h1, List.nodup_singleton x, by
          intro a ha hax
          rw [List.mem_singleton.mp hax] at ha
          exact hmem ha⟩
      · intro y
        rw [List.mem_append, List.mem_append, h2 y]
      · rw [List.pairwise_append]
        refine ⟨?_, List.pairwise_singleton _ x, ?_⟩
        · refine h3.imp_of_mem ?_
          intro a b ha hb hab
          have ha' : a ∈ seen := (h2 a).mp ha
          have hb' : b ∈ seen := (h2 b).mp hb
          simp only [firstPos] at hab ⊢
          rw [List.indexOf_append_of_mem ha', List.indexOf_append_of_mem hb']
          exact hab
        · intro a ha b hb
          rw [List.mem_singleton.mp hb]
          have ha' : a ∈ seen := (h2 a).mp ha
          simp only [firstPos]
          rw [List.indexOf_append_of_mem ha', List.indexOf_append_of_not_mem hxseen]
          have h0 : List.indexOf x [x] = 0 := List.indexOf_cons_self x []
          rw [h0, Nat.add_zero]
          exact List.indexOf_lt_length.mpr ha'

/-- Specialization of `dedupFold_spec` to the empty starting accumulator. -/
theorem dedupFold_spec_nil {α : Type} [DecidableEq α] (l : List α) :
    ((l.foldl dedupStep []).Nodup ∧
      (∀ x, x ∈ l.foldl dedupStep [] ↔ x ∈ l) ∧
      (l.foldl dedupStep []).Pairwise
        (fun a b => firstPos l a < firstPos l b)) := by
  have := dedupFold_spec l [] [] List.nodup_nil (by simp) (List.Pairwise.nil)
  simpa using this

/-- Membership in `emailStream`. -/
theorem mem_emailStream (ms : List (List Char)) (e : List Char) :
    e ∈ emailStream ms ↔
      ∃ m ∈ ms, e = lowerL m ∧ isImageName (lowerL m) = false := by
  unfold emailStream
  rw [List.mem_filterMap]
  constructor
  · rintro ⟨m, hm, hme⟩
    by_cases himg : isImageName (lowerL m)
    · rw [if_pos himg] at hme; cases hme
    · rw [if_neg himg] at hme
      exact ⟨m, hm, (Option.some.inj hme).symm, by simpa using himg⟩
  · rintro ⟨m, hm, he, himg⟩
    exact ⟨m, hm, by rw [if_neg (by simp [himg]), he]⟩

/-- C7 — the extractors return only validated/normalized entries (phones:
successful results of `validate_russian_phone`; emails: lowercased matches
whose lowercase form does not end in .png/.jpg/.gif), with no duplicates and
in order of first appearance in the match stream. -/
theorem extractors_normalized_deduplicated (pm em : List (List Char)) :
    (extract_phones_from_text pm).Nodup ∧
      (∀ x, x ∈ extract_phones_from_text pm ↔
        ∃ m ∈ pm, validate_russian_phone m = some x) ∧
      (extract_phones_from_text pm).Pairwise
        (fun a b => firstPos (phoneStream pm) a < firstPos (phoneStream pm) b) ∧
      (extract_emails_from_text em).Nodup ∧
      (∀ e, e ∈ extract_emails_from_text em ↔
        ∃ m ∈ em, e = lowerL m ∧ isImageName (lowerL m) = false) ∧
      (extract_emails_from_text em).Pairwise
        (fun a b => firstPos (emailStream em) a < firstPos (emailStream em) b) := by
  have hp : extract_phones_from_text pm = (phoneStream pm).foldl dedupStep [] :=
    foldl_phoneStep pm []
  have he : extract_emails_from_text em = (emailStream em).foldl dedupStep [] :=
    foldl_emailStep em []
  obtain ⟨hp1, hp2, hp3⟩ := dedupFold_spec_nil (phoneStream pm)
  obtain ⟨he1, he2, he3⟩ := dedupFold_spec_nil (emailStream em)
  refine ⟨hp ▸ hp1, ?_, hp ▸ hp3, he ▸ he1, ?_, he ▸ he3⟩
  · intro x
    rw [hp, hp2 x]
    unfold phoneStream
    exact List.mem_filterMap
  · intro e
    rw [he, he2 e]
    exact mem_emailStream em e

/-- Witness for `validate_russian_phone_shape` at the concrete input
"89261234567". -/
theorem validate_russian_phone_shape_witness :
    ("+79261234567".toList.length = 12 ∧
      "+79261234567".toList.take 2 = ['+', '7'] ∧
      ("+79261234567".toList.drop 2).length = 10 ∧
      (∀ c ∈ "+79261234567".toList.drop 2, c.isDigit) ∧
      ∃ d rest, "+79261234567".toList.drop 2 = d :: rest ∧
        d ∈ ['3', '4', '5', '6', '7', '8', '9']) :=
  validate_russian_phone_shape "89261234567".toList "+79261234567".toList (by decide)

/-- Embedding of the `CompanyData` dataclass (scraper.py lines 54-88); the
`founders` entries (Python dicts) are modelled as attribute association lists. -/
structure CompanyData where
  inn : String := ""
  ogrn : String := ""
  kpp : String := ""
  short_name : String := ""
  full_name : String := ""
  status : String := ""
  legal_address : String := ""
  region : String := ""
  director_name : String := ""
  director_position : String := ""
  registration_date : String := ""
  okved_main : String := ""
  okved_main_name : String := ""
  authorized_capital : String := ""
  revenue : String := ""
  profit : String := ""
  employees_count : String := ""
  phones : List String := []
  emails : List String := []
  website : String := ""
  okpo : String := ""
  oktmo : String := ""
  tax_system : String := ""
  msp_category : String := ""
  government_contracts_count : Nat := 0
  government_contracts_sum : String := ""
  court_cases_plaintiff : Nat := 0
  court_cases_defendant : Nat := 0
  founders : List (List (String × String)) := []
  source_url : String := ""
  parsed_at : String := ""
  data_source : String := ""
deriving DecidableEq

/-- `CompanyData()` with every field at its dataclass default. -/
def emptyCompanyData : CompanyData := {}

/-- First-occurrence deduplication of a list; deterministic stand-in for
Python `list(set(l))` over hashable elements, whose element order is
unspecified (the merge claims only constrain the result up to membership). -/
def dedupLoop {α : Type} [DecidableEq α] (l : List α) : List α :=
  l.foldl dedupStep []

/-- The per-field merge rule of `CompanyData.merge_with` for non-list fields
(`if not self_val and other_val: setattr(self, fld, other_val)`), at type
`String` where falsiness is emptiness. -/
def mergeStr (a b : String) : String := if a = "" ∧ b ≠ "" then b else a

/-- The same per-field rule at type `Nat`, where falsiness is zero. -/
def mergeNat (a b : Nat) : Nat := if a = 0 ∧ b ≠ 0 then b else a

/-- The per-field merge rule for list fields on the non-raising path: an
empty primary adopts the secondary list unchanged (first branch of the
loop), otherwise `list(set(self_val + other_val))` merges unique values.
For `founders` the else-branch is reachable only when it raises (see
`CompanyData.merge_with`), so this total function is only ever used on the
domain where the Python expression actually produces a value. -/
def mergeList {α : Type} [DecidableEq α] (a b : List α) : List α :=
  if a = [] ∧ b ≠ [] then b else dedupLoop (a ++ b)

/-- The record produced by the field loop of `CompanyData.merge_with`
(scraper.py lines 93-108) when no exception occurs: the loop over
`__dataclass_fields__` applies the empty-adopt rule to scalar fields and
the set-union rule to list fields; `data_source` also goes through the loop
and is then overwritten with "merged" unconditionally. -/
def CompanyData.merge_fields (p s : CompanyData) : CompanyData where
  inn := mergeStr p.inn s.inn
  ogrn := mergeStr p.ogrn s.ogrn
  kpp := mergeStr p.kpp s.kpp
  short_name := mergeStr p.short_name s.short_name
  full_name := mergeStr p.full_name s.full_name
  status := mergeStr p.status s.status
  legal_address := mergeStr p.legal_address s.legal_address
  region := mergeStr p.region s.region
  director_name := mergeStr p.director_name s.director_name
  director_position := mergeStr p.director_position s.director_position
  registration_date := mergeStr p.registration_date s.registration_date
  okved_main := mergeStr p.okved_main s.okved_main
  okved_main_name := mergeStr p.okved_main_name s.okved_main_name
  authorized_capital := mergeStr p.authorized_capital s.authorized_capital
  revenue := mergeStr p.revenue s.revenue
  profit := mergeStr p.profit s.profit
  employees_count := mergeStr p.employees_count s.employees_count
  phones := mergeList p.phones s.phones
  emails := mergeList p.emails s.emails
  website := mergeStr p.website s.website
  okpo := mergeStr p.okpo s.okpo
  oktmo := mergeStr p.oktmo s.oktmo
  tax_system := mergeStr p.tax_system s.tax_system
  msp_category := mergeStr p.msp_category s.msp_category
  government_contracts_count := mergeNat p.government_contracts_count s.government_contracts_count
  government_contracts_sum := mergeStr p.government_contracts_sum s.government_contracts_sum
  court_cases_plaintiff := mergeNat p.court_cases_plaintiff s.court_cases_plaintiff
  court_cases_defendant := mergeNat p.court_cases_defendant s.court_cases_defendant
  founders := mergeList p.founders s.founders
  source_url := mergeStr p.source_url s.source_url
  parsed_at := mergeStr p.parsed_at s.parsed_at
  data_source := "merged"

/-- Embedding of `CompanyData.merge_with` (scraper.py lines 93-108).  The
phones/emails unions hash strings and always succeed, but `founders` is a
`List[Dict]` and Python dicts are unhashable, so
`list(set(self_val + other_val))` raises `TypeError` whenever it hashes a
non-empty founders concatenation.  That branch runs iff the primary's
founders list is non-empty: an empty primary either adopts the secondary's
list verbatim without hashing (first branch), or unions two empty lists.
`none` models the raise (no merged record is produced). -/
def CompanyData.merge_with (p s : CompanyData) : Option CompanyData :=
  if p.founders = [] then some (p.merge_fields s) else none

/-- Specification predicate for C1 on a non-list field: an empty primary with
a non-empty secondary adopts the secondary value, otherwise the primary value
is unchanged. -/
def fillsEmptyStr (a b c : String) : Prop :=
  (a = "" ∧ b ≠ "" → c = b) ∧ (¬(a = "" ∧ b ≠ "") → c = a)

/-- The same specification predicate at type `Nat`. -/
def fillsEmptyNat (a b c : Nat) : Prop :=
  (a = 0 ∧ b ≠ 0 → c = b) ∧ (¬(a = 0 ∧ b ≠ 0) → c = a)

/-- Specification predicate for C1 on a sequence field: the result is the
set-union of the two sides (membership only; order not constrained). -/
def unionSpec {α : Type} (a b c : List α) : Prop :=
  ∀ x, x ∈ c ↔ x ∈ a ∨ x ∈ b

/-- Specification predicate for C1 on a sequence field, with the empty-adopt
clause verbatim: an empty primary with a non-empty secondary adopts the
secondary's list exactly, and in every case the result is the set-union of
the two sides. -/
def listMergeSpec {α : Type} (a b c : List α) : Prop :=
  (a = [] ∧ b ≠ [] → c = b) ∧ unionSpec a b c

theorem mergeStr_fills (a b : String) : fillsEmptyStr a b (mergeStr a b) := by
  unfold fillsEmptyStr mergeStr
  constructor
  · intro h; rw [if_pos h]
  · intro h; rw [if_neg h]

theorem mergeNat_fills (a b : Nat) : fillsEmptyNat a b (mergeNat a b) := by
  unfold fillsEmptyNat mergeNat
  constructor
  · intro h; rw [if_pos h]
  · intro h; rw [if_neg h]

theorem mem_dedupLoop {α : Type} [DecidableEq α] (l : List α) (x : α) :
    x ∈ dedupLoop l ↔ x ∈ l := by
  obtain ⟨-, h2, -⟩ := dedupFold_spec_nil l
  exact h2 x

theorem mergeList_union {α : Type} [DecidableEq α] (a b : List α) :
    unionSpec a b (mergeList a b) := by
  intro x
  unfold mergeList
  by_cases h : a = [] ∧ b ≠ []
  · rw [if_pos h, h.1]
    simp
  · rw [if_neg h, mem_dedupLoop, List.mem_append]

theorem mergeList_spec {α : Type} [DecidableEq α] (a b : List α) :
    listMergeSpec a b (mergeList a b) := by
  refine ⟨?_, mergeList_union a b⟩
  intro h
  unfold mergeList
  rw [if_pos h]

theorem mergeList_nil_left {α : Type} [DecidableEq α] (b : List α) :
    mergeList [] b = b := by
  unfold mergeList
  by_cases hb : b = []
  · rw [if_neg (by simp [hb]), hb]
    rfl
  · rw [if_pos ⟨rfl, hb⟩]

/-- On a primary with an empty founders list, `merge_with` does not raise
and returns the field-loop record. -/
theorem merge_with_eq_of_founders_nil (p s : CompanyData)
    (hf : p.founders = []) :
    p.merge_with s = some (p.merge_fields s) := by
  unfold CompanyData.merge_with
  rw [if_pos hf]

/-- A record with one founders entry. -/
def founderRecord : CompanyData :=
  { founders := [[("name", "x")]] }

/-- C1 counterexample — `merge_with` does not process the fields of every
pair of records: for a primary with a non-empty founders list,
`list(set(self_val + other_val))` hashes the unhashable dict entries and
raises `TypeError` (modelled as `none`), so no merged record with
set-union founders and provenance "merged" is produced. -/
theorem merge_with_raises_on_nonempty_founders :
    founderRecord.merge_with emptyCompanyData = none := by
  decide

/-- C1 (amended) — on every pair whose primary has an empty founders list
(`merge_with` raises `TypeError` otherwise), the merge succeeds and
processes every field as claimed: an empty/absent primary value with a
non-empty secondary one is adopted (for sequence fields, the secondary's
list verbatim); the sequence fields phones/emails/founders are the
set-union of both sides (order not constrained), founders being exactly the
secondary's list; otherwise the primary value is left unchanged; and
`data_source` (provenance) is set to "merged" unconditionally. -/
theorem merge_with_fieldwise (p s : CompanyData) (hf : p.founders = []) :
    p.merge_with s = some (p.merge_fields s) ∧
    fillsEmptyStr p.inn s.inn (p.merge_fields s).inn ∧
    fillsEmptyStr p.ogrn s.ogrn (p.merge_fields s).ogrn ∧
    fillsEmptyStr p.kpp s.kpp (p.merge_fields s).kpp ∧
    fillsEmptyStr p.short_name s.short_name (p.merge_fields s).short_name ∧
    fillsEmptyStr p.full_name s.full_name (p.merge_fields s).full_name ∧
    fillsEmptyStr p.status s.status (p.merge_fields s).status ∧
    fillsEmptyStr p.legal_address s.legal_address (p.merge_fields s).legal_address ∧
    fillsEmptyStr p.region s.region (p.merge_fields s).region ∧
    fillsEmptyStr p.director_name s.director_name (p.merge_fields s).director_name ∧
    fillsEmptyStr p.director_position s.director_position (p.merge_fields s).director_position ∧
    fillsEmptyStr p.registration_date s.registration_date (p.merge_fields s).registration_date ∧
    fillsEmptyStr p.okved_main s.okved_main (p.merge_fields s).okved_main ∧
    fillsEmptyStr p.okved_main_name s.okved_main_name (p.merge_fields s).okved_main_name ∧
    fillsEmptyStr p.authorized_capital s.authorized_capital (p.merge_fields s).authorized_capital ∧
    fillsEmptyStr p.revenue s.revenue (p.merge_fields s).revenue ∧
    fillsEmptyStr p.profit s.profit (p.merge_fields s).profit ∧
    fillsEmptyStr p.employees_count s.employees_count (p.merge_fields s).employees_count ∧
    listMergeSpec p.phones s.phones (p.merge_fields s).phones ∧
    listMergeSpec p.emails s.emails (p.merge_fields s).emails ∧
    fillsEmptyStr p.website s.website (p.merge_fields s).website ∧
    fillsEmptyStr p.okpo s.okpo (p.merge_fields s).okpo ∧
    fillsEmptyStr p.oktmo s.oktmo (p.merge_fields s).oktmo ∧
    fillsEmptyStr p.tax_system s.tax_system (p.merge_fields s).tax_system ∧
    fillsEmptyStr p.msp_category s.msp_category (p.merge_fields s).msp_category ∧
    fillsEmptyNat p.government_contracts_count s.government_contracts_count (p.merge_fields s).government_contracts_count ∧
    fillsEmptyStr p.government_contracts_sum s.government_contracts_sum (p.merge_fields s).government_contracts_sum ∧
    fillsEmptyNat p.court_cases_plaintiff s.court_cases_plaintiff (p.merge_fields s).court_cases_plaintiff ∧
    fillsEmptyNat p.court_cases_defendant s.court_cases_defendant (p.merge_fields s).court_cases_defendant ∧
    listMergeSpec p.founders s.founders (p.merge_fields s).founders ∧
    (p.merge_fields s).founders = s.founders ∧
    fillsEmptyStr p.source_url s.source_url (p.merge_fields s).source_url ∧
    fillsEmptyStr p.parsed_at s.parsed_at (p.merge_fields s).parsed_at ∧
    (p.merge_fields s).data_source = "merged" := by
  refine ⟨merge_with_eq_of_founders_nil p s hf, mergeStr_fills p.inn s.inn, mergeStr_fills p.ogrn s.ogrn, mergeStr_fills p.kpp s.kpp, mergeStr_fills p.short_name s.short_name, mergeStr_fills p.full_name s.full_name, mergeStr_fills p.status s.status, mergeStr_fills p.legal_address s.legal_address, mergeStr_fills p.region s.region, mergeStr_fills p.director_name s.director_name, mergeStr_fills p.director_position s.director_position, mergeStr_fills p.registration_date s.registration_date, mergeStr_fills p.okved_main s.okved_main, mergeStr_fills p.okved_main_name s.okved_main_name, mergeStr_fills p.authorized_capital s.authorized_capital, mergeStr_fills p.revenue s.revenue, mergeStr_fills p.profit s.profit, mergeStr_fills p.employees_count s.employees_count, mergeList_spec p.phones s.phones, mergeList_spec p.emails s.emails, mergeStr_fills p.website s.website, mergeStr_fills p.okpo s.okpo, mergeStr_fills p.oktmo s.oktmo, mergeStr_fills p.tax_system s.tax_system, mergeStr_fills p.msp_category s.msp_category, mergeNat_fills p.government_contracts_count s.government_contracts_count, mergeStr_fills p.government_contracts_sum s.government_contracts_sum, mergeNat_fills p.court_cases_plaintiff s.court_cases_plaintiff, mergeNat_fills p.court_cases_defendant s.court_cases_defendant, mergeList_spec p.founders s.founders, ?_, mergeStr_fills p.source_url s.source_url, mergeStr_fills p.parsed_at s.parsed_at, rfl⟩
  show mergeList p.founders s.founders = s.founders
  rw [hf, mergeList_nil_left]

/-- Witness for `merge_with_fieldwise` at a concrete pair with an empty
primary founders list. -/
theorem merge_with_fieldwise_witness :
    emptyCompanyData.merge_with founderRecord =
      some (emptyCompanyData.merge_fields founderRecord) :=
  (merge_with_fieldwise emptyCompanyData founderRecord rfl).1

/-- A record whose phones list contains a duplicate entry. -/
def dupPhonesRecord : CompanyData :=
  { phones := ["+71112223344", "+71112223344"] }

/-- C2 counterexample — merging with an all-default record does NOT leave
every field value unchanged with only provenance flipping: the
duplicate-containing phones list collapses under the `list(set(...))`
union, so the result differs from the original record with its provenance
set to "merged". -/
theorem merge_with_empty_changes_phones :
    dupPhonesRecord.merge_with emptyCompanyData ≠
      some { dupPhonesRecord with data_source := "merged" } := by
  decide

/-- C2 (amended) — for every record `A` whose founders list is empty
(for a non-empty founders list `merge_with` raises `TypeError`, as the C1
counterexample shows), merging `A` with a freshly constructed all-default
record succeeds and returns a record with every scalar field unchanged,
phones and emails unchanged as sets (the `list(set(...))` union
deduplicates them and does not guarantee order), founders unchanged, and
`data_source` flipped to "merged". -/
theorem merge_with_empty_preserves (p : CompanyData) (hf : p.founders = []) :
    p.merge_with emptyCompanyData = some (p.merge_fields emptyCompanyData) ∧
    (p.merge_fields emptyCompanyData).inn = p.inn ∧
    (p.merge_fields emptyCompanyData).ogrn = p.ogrn ∧
    (p.merge_fields emptyCompanyData).kpp = p.kpp ∧
    (p.merge_fields emptyCompanyData).short_name = p.short_name ∧
    (p.merge_fields emptyCompanyData).full_name = p.full_name ∧
    (p.merge_fields emptyCompanyData).status = p.status ∧
    (p.merge_fields emptyCompanyData).legal_address = p.legal_address ∧
    (p.merge_fields emptyCompanyData).region = p.region ∧
    (p.merge_fields emptyCompanyData).director_name = p.director_name ∧
    (p.merge_fields emptyCompanyData).director_position = p.director_position ∧
    (p.merge_fields emptyCompanyData).registration_date = p.registration_date ∧
    (p.merge_fields emptyCompanyData).okved_main = p.okved_main ∧
    (p.merge_fields emptyCompanyData).okved_main_name = p.okved_main_name ∧
    (p.merge_fields emptyCompanyData).authorized_capital = p.authorized_capital ∧
    (p.merge_fields emptyCompanyData).revenue = p.revenue ∧
    (p.merge_fields emptyCompanyData).profit = p.profit ∧
    (p.merge_fields emptyCompanyData).employees_count = p.employees_count ∧
    (∀ x, x ∈ (p.merge_fields emptyCompanyData).phones ↔ x ∈ p.phones) ∧
    (∀ x, x ∈ (p.merge_fields emptyCompanyData).emails ↔ x ∈ p.emails) ∧
    (p.merge_fields emptyCompanyData).website = p.website ∧
    (p.merge_fields emptyCompanyData).okpo = p.okpo ∧
    (p.merge_fields emptyCompanyData).oktmo = p.oktmo ∧
    (p.merge_fields emptyCompanyData).tax_system = p.tax_system ∧
    (p.merge_fields emptyCompanyData).msp_category = p.msp_category ∧
    (p.merge_fields emptyCompanyData).government_contracts_count = p.government_contracts_count ∧
    (p.merge_fields emptyCompanyData).government_contracts_sum = p.government_contracts_sum ∧
    (p.merge_fields emptyCompanyData).court_cases_plaintiff = p.court_cases_plaintiff ∧
    (p.merge_fields emptyCompanyData).court_cases_defendant = p.court_cases_defendant ∧
    (p.merge_fields emptyCompanyData).founders = p.founders ∧
    (p.merge_fields emptyCompanyData).source_url = p.source_url ∧
    (p.merge_fields emptyCompanyData).parsed_at = p.parsed_at ∧
    (p.merge_fields emptyCompanyData).data_source = "merged" := by
  refine ⟨merge_with_eq_of_founders_nil p emptyCompanyData hf, ?_, ?_, ?_, ?_, ?_, ?_, ?_, ?_, ?_, ?_, ?_, ?_, ?_, ?_, ?_, ?_, ?_, ?_, ?_, ?_, ?_, ?_, ?_, ?_, ?_, ?_, ?_, ?_, ?_, ?_, ?_, rfl⟩
  · show mergeStr p.inn "" = p.inn
    simp [mergeStr]
  · show mergeStr p.ogrn "" = p.ogrn
    simp [mergeStr]
  · show mergeStr p.kpp "" = p.kpp
    simp [mergeStr]
  · show mergeStr p.short_name "" = p.short_name
    simp [mergeStr]
  · show mergeStr p.full_name "" = p.full_name
    simp [mergeStr]
  · show mergeStr p.status "" = p.status
    simp [mergeStr]
  · show mergeStr p.legal_address "" = p.legal_address
    simp [mergeStr]
  · show mergeStr p.region "" = p.region
    simp [mergeStr]
  · show mergeStr p.director_name "" = p.director_name
    simp [mergeStr]
  · show mergeStr p.director_position "" = p.director_position
    simp [mergeStr]
  · show mergeStr p.registration_date "" = p.registration_date
    simp [mergeStr]
  · show mergeStr p.okved_main "" = p.okved_main
    simp [mergeStr]
  · show mergeStr p.okved_main_name "" = p.okved_main_name
    simp [mergeStr]
  · show mergeStr p.authorized_capital "" = p.authorized_capital
    simp [mergeStr]
  · show mergeStr p.revenue "" = p.revenue
    simp [mergeStr]
  · show mergeStr p.profit "" = p.profit
    simp [mergeStr]
  · show mergeStr p.employees_count "" = p.employees_count
    simp [mergeStr]
  · intro x
    show x ∈ mergeList p.phones [] ↔ x ∈ p.phones
    rw [mergeList_union p.phones [] x]
    simp
  · intro x
    show x ∈ mergeList p.emails [] ↔ x ∈ p.emails
    rw [mergeList_union p.emails [] x]
    simp
  · show mergeStr p.website "" = p.website
    simp [mergeStr]
  · show mergeStr p.okpo "" = p.okpo
    simp [mergeStr]
  · show mergeStr p.oktmo "" = p.oktmo
    simp [mergeStr]
  · show mergeStr p.tax_system "" = p.tax_system
    simp [mergeStr]
  · show mergeStr p.msp_category "" = p.msp_category
    simp [mergeStr]
  · show mergeNat p.government_contracts_count 0 = p.government_contracts_count
    simp [mergeNat]
  · show mergeStr p.government_contracts_sum "" = p.government_contracts_sum
    simp [mergeStr]
  · show mergeNat p.court_cases_plaintiff 0 = p.court_cases_plaintiff
    simp [mergeNat]
  · show mergeNat p.court_cases_defendant 0 = p.court_cases_defendant
    simp [mergeNat]
  · show mergeList p.founders [] = p.founders
    rw [hf, mergeList_nil_left]
  · show mergeStr p.source_url "" = p.source_url
    simp [mergeStr]
  · show mergeStr p.parsed_at "" = p.parsed_at
    simp [mergeStr]

/-- Witness for `merge_with_empty_preserves` at a concrete record with an
empty founders list. -/
theorem merge_with_empty_preserves_witness :
    dupPhonesRecord.merge_with emptyCompanyData =
      some (dupPhonesRecord.merge_fields emptyCompanyData) :=
  (merge_with_empty_preserves dupPhonesRecord rfl).1

/-- ASCII and Russian-alphabet lowercasing of one character, modelling
`str.lower()` / `re.IGNORECASE` on the character sets these pages use. -/
def ruLower (c : Char) : Char :=
  if 'A' ≤ c ∧ c ≤ 'Z' then Char.ofNat (c.toNat + 32)
  else if 'А' ≤ c ∧ c ≤ 'Я' then Char.ofNat (c.toNat + 32)
  else if c = 'Ё' then 'ё'
  else c

/-- `str.lower()` over a whole string (as a character list). -/
def lowerRu (s : List Char) : List Char := s.map ruLower

/-- `pat in s` — Python substring containment. -/
def containsSub (pat : List Char) : List Char → Bool
  | [] => pat.isEmpty
  | c :: rest => pat.isPrefixOf (c :: rest) || containsSub pat rest

/-- `SESSION_MAX_AGE_HOURS` (scraper.py line 45). -/
def SESSION_MAX_AGE_HOURS : Int := 128

/-- `BASE_URL` (scraper.py line 46). -/
def BASE_URL : String := "https://www.rusprofile.ru"

/-- `SEARCH_URL.format(query=quote(inn))` (scraper.py lines 47 and 214);
`quote` is the identity on the all-digit strings that pass the INN guard. -/
def searchURL (inn : String) : String :=
  "https://www.rusprofile.ru/search?query=" ++ inn

/-- The persisted session blob written by `_save_session` (scraper.py lines
131-141): cookie set, capture timestamp (modelled in seconds), and the
credential email it was obtained with. -/
structure SessionBlob where
  cookies : List (String × String)
  timestamp : Int
  email : String
deriving DecidableEq

/-- The mutable scraper session state relevant to the claims: the
`is_logged_in` flag and the requests-session cookie jar. -/
structure PState where
  is_logged_in : Bool := false
  cookies : List (String × String) := []
deriving DecidableEq

/-- `session.cookies.set(name, value)`: overwrite any cookie of that name. -/
def setCookie (cs : List (String × String)) (nv : String × String) :
    List (String × String) :=
  cs.filter (fun c => c.1 ≠ nv.1) ++ [nv]

/-- Observable external actions of the session manager: invoking `login`,
a GET fetch, and the credential POST. -/
inductive Effect where
  | loginCall : Effect
  | get : String → Effect
  | post : String → Effect
deriving DecidableEq

/-- Oracles for the network and for BeautifulSoup HTML queries: `fetch` is
`_fetch` (GET body or `None` on network failure), `postLogin` the login POST
response body, `canonicalHref` the canonical-link href of a document when the
element exists, `firstIdLink` the href of the first `/id/` anchor, and
`parseFields` abstracts `_parse_premium_fields` (whose output does not affect
the control flow verified here). -/
structure Env where
  email : String := ""
  password : String := ""
  fetch : String → Option String := fun _ => none
  postLogin : String → Option String := fun _ => none
  canonicalHref : String → Option String := fun _ => none
  firstIdLink : String → Option String := fun _ => none
  parseFields : String → String → CompanyData := fun _ _ => {}

/-- Embedding of `RusprofileParser._load_session` (scraper.py lines 143-158):
`blob` is `None` when the session file is missing or unreadable; a blob older
than `SESSION_MAX_AGE_HOURS` or recorded under a different email is refused
(returning `False` and leaving the state untouched); otherwise the cookies
are installed and `is_logged_in` is set. -/
def load_session : Option SessionBlob → Int → String → PState → Bool × PState
  | none, _, _, st => (false, st)
  | some b, now, email, st =>
    if now - b.timestamp > SESSION_MAX_AGE_HOURS * 3600 then (false, st)
    else if b.email ≠ email then (false, st)
    else (true, { st with is_logged_in := true,
                          cookies := b.cookies.foldl setCookie st.cookies })

/-- `'logout' in resp.text.lower() or 'выход' in resp.text.lower()`. -/
def hasLoginMarker (body : String) : Bool :=
  containsSub "logout".toList (lowerRu body.toList) ||
    containsSub "выход".toList (lowerRu body.toList)

/-- Embedding of `RusprofileParser.login` (scraper.py lines 169-204): no-op
when already logged in and not forced; refuse without credentials; fetch the
site root (failure aborts); POST the credentials (the CSRF token extracted
from the root page is part of the posted form and does not affect the
success decision); succeed exactly when the response body carries a logout
marker.  The effect trace records the invocation and the network actions. -/
def login (env : Env) (st : PState) (force : Bool) : Bool × PState × List Effect :=
  if st.is_logged_in ∧ ¬ force then (true, st, [Effect.loginCall])
  else if env.email = "" ∨ env.password = "" then (false, st, [Effect.loginCall])
  else
    match env.fetch BASE_URL with
    | none => (false, st, [Effect.loginCall, Effect.get BASE_URL])
    | some _ =>
      match env.postLogin BASE_URL with
      | none => (false, st, [Effect.loginCall, Effect.get BASE_URL, Effect.post BASE_URL])
      | some body =>
        if hasLoginMarker body then
          (true, { st with is_logged_in := true },
            [Effect.loginCall, Effect.get BASE_URL, Effect.post BASE_URL])
        else
          (false, st, [Effect.loginCall, Effect.get BASE_URL, Effect.post BASE_URL])

/-- Embedding of `RusprofileParser.get_premium_data` (scraper.py lines
206-237): an empty or invalid INN returns `None` before anything else
happens; otherwise `login` runs, the search page is fetched, and either the
canonical-link shortcut (`'/id/' in canonical href`) resolves the document
directly, or the first `/id/` anchor is followed and fetched. -/
def get_premium_data (env : Env) (st : PState) (inn : String) :
    Option CompanyData × PState × List Effect :=
  if inn = "" ∨ ¬ validate_inn inn.toList then (none, st, [])
  else
    let L := login env st false
    match env.fetch (searchURL inn) with
    | none => (none, L.2.1, L.2.2 ++ [Effect.get (searchURL inn)])
    | some html =>
      match
        (match env.canonicalHref html with
          | some href =>
            if containsSub "/id/".toList href.toList then some href else none
          | none => none) with
      | some href =>
        (some (env.parseFields html href), L.2.1, L.2.2 ++ [Effect.get (searchURL inn)])
      | none =>
        match env.firstIdLink html with
        | none => (none, L.2.1, L.2.2 ++ [Effect.get (searchURL inn)])
        | some href =>
          let curl := if "http".toList.isPrefixOf href.toList then href
                      else BASE_URL ++ href
          match env.fetch curl with
          | none =>
            (none, L.2.1, L.2.2 ++ [Effect.get (searchURL inn), Effect.get curl])
          | some html2 =>
            (some (env.parseFields html2 curl), L.2.1,
              L.2.2 ++ [Effect.get (searchURL inn), Effect.get curl])

/-- The registry-lookup outcome of `get_premium_data` as a pure function of
the environment: the returned `Option CompanyData` does not depend on the
session state (proved below). -/
def premium_lookup (env : Env) (inn : String) : Option CompanyData :=
  if inn = "" ∨ ¬ validate_inn inn.toList then none
  else
    match env.fetch (searchURL inn) with
    | none => none
    | some html =>
      match
        (match env.canonicalHref html with
          | some href =>
            if containsSub "/id/".toList href.toList then some href else none
          | none => none) with
      | some href => some (env.parseFields html href)
      | none =>
        match env.firstIdLink html with
        | none => none
        | some href =>
          let curl := if "http".toList.isPrefixOf href.toList then href
                      else BASE_URL ++ href
          match env.fetch curl with
          | none => none
          | some html2 => some (env.parseFields html2 curl)

/-- The record component of `get_premium_data` is state-independent. -/
theorem get_premium_data_fst (env : Env) (st : PState) (inn : String) :
    (get_premium_data env st inn).1 = premium_lookup env inn := by
  unfold get_premium_data premium_lookup
  by_cases h : inn = "" ∨ ¬ validate_inn inn.toList
  · rw [if_pos h, if_pos h]
  · rw [if_neg h, if_neg h]
    cases hf : env.fetch (searchURL inn) with
    | none => simp
    | some html =>
      simp only []
      cases hc :
          (match env.canonicalHref html with
            | some href =>
              if containsSub "/id/".toList href.toList then some href else none
            | none => none) with
      | some href => simp [hc]
      | none =>
        simp only [hc]
        cases hl : env.firstIdLink html with
        | none => simp
        | some href =>
          simp only []
          cases h2 : env.fetch (if "http".toList.isPrefixOf href.toList then href
              else BASE_URL ++ href) with
          | none => simp [h2]
          | some html2 => simp [h2]

/-- Embedding of `CompanyFinderAgent.enrich_with_rusprofile` (scraper.py
lines 503-529): each draft is looked up by its INN; a successful lookup is
merged into the draft, a failed one leaves it untouched; the possibly-merged
record is appended and the session state is threaded through (the 1-second
politeness delay has no observable effect in this model).  The merge step is
the field loop `merge_fields`: the drafts this pipeline receives carry an
empty founders list (neither `extract_companies_from_response` nor
`_parse_premium_fields` ever populates `founders`), so on the pipeline's
inputs `merge_with` never raises and, by `merge_with_eq_of_founders_nil`,
equals `some` of `merge_fields`. -/
def enrich_with_rusprofile (env : Env) : PState → List CompanyData →
    List CompanyData × PState
  | st, [] => ([], st)
  | st, c :: rest =>
    ((match (get_premium_data env st c.inn).1 with
      | some premium => c.merge_fields premium
      | none => c) ::
        (enrich_with_rusprofile env (get_premium_data env st c.inn).2.1 rest).1,
      (enrich_with_rusprofile env (get_premium_data env st c.inn).2.1 rest).2)

/-- The enrichment pipeline returns one output record per input draft. -/
theorem enrich_length (env : Env) :
    ∀ (st : PState) (cs : List CompanyData),
      ((enrich_with_rusprofile env st cs).1).length = cs.length := by
  intro st cs
  induction cs generalizing st with
  | nil => rfl
  | cons c rest ih =>
    simp only [enrich_with_rusprofile, List.length_cons]
    rw [ih]

/-- Pointwise: a draft whose lookup yields no registry result is returned
unmodified at its own position. -/
theorem enrich_get_of_lookup_none (env : Env) :
    ∀ (cs : List CompanyData) (st : PState) (i : Nat) (h : i < cs.length),
      premium_lookup env (cs[i]).inn = none →
        ((enrich_with_rusprofile env st cs).1)[i]? = some cs[i] := by
  intro cs
  induction cs with
  | nil =>
    intro st i h
    exact absurd h (by simp)
  | cons c rest ih =>
    intro st i h hnone
    cases i with
    | zero =>
      have hr : (get_premium_data env st c.inn).1 = none := by
        rw [get_premium_data_fst]
        simpa using hnone
      simp only [enrich_with_rusprofile, hr]
      simp
    | succ j =>
      have hj : j < rest.length := by
        simpa [Nat.succ_lt_succ_iff] using h
      have hnone' : premium_lookup env (rest[j]).inn = none := by
        simpa using hnone
      simp only [enrich_with_rusprofile]
      have := ih (get_premium_data env st c.inn).2.1 j hj hnone'
      simpa using this

/-- C3 — `enrich_with_rusprofile` returns exactly one output record per
input record, in input order, and a draft whose tax-ID lookup yields no
registry result is returned unmodified at its position (hence its
`data_source` provenance, "agent" for drafts, is untouched). -/
theorem enrich_one_to_one_and_preserves_failures (env : Env) (st : PState)
    (cs : List CompanyData) :
    ((enrich_with_rusprofile env st cs).1).length = cs.length ∧
      ∀ i (h : i < cs.length), premium_lookup env (cs[i]).inn = none →
        ((enrich_with_rusprofile env st cs).1)[i]? = some cs[i] :=
  ⟨enrich_length env st cs, fun i h hnone => enrich_get_of_lookup_none env cs st i h hnone⟩

/-- An all-default environment: no credentials, every fetch fails. -/
def env0 : Env := {}

/-- A draft record carrying only an (invalid) tax ID and agent provenance. -/
def draft0 : CompanyData := { inn := "123", data_source := "agent" }

/-- Witness for `enrich_one_to_one_and_preserves_failures`: a single draft
whose lookup yields nothing passes through unmodified. -/
theorem enrich_one_to_one_witness :
    ((enrich_with_rusprofile env0 {} [draft0]).1)[0]? = some ([draft0][0]) :=
  (enrich_one_to_one_and_preserves_failures env0 {} [draft0]).2 0 (by decide)
    (by decide)

/-- C9 — `get_premium_data` on an empty or invalid INN returns `None`
immediately: no login attempt, no fetch, and no session-state change. -/
theorem get_premium_data_invalid_inn (env : Env) (st : PState) (inn : String)
    (h : inn = "" ∨ validate_inn inn.toList = false) :
    get_premium_data env st inn = (none, st, []) := by
  unfold get_premium_data
  have h' : inn = "" ∨ ¬ validate_inn inn.toList = true := by
    rcases h with h | h
    · exact Or.inl h
    · have h2 : validate_inn inn.data = false := h
      exact Or.inr (by simp [h2])
  rw [if_pos h']

/-- Witness for `get_premium_data_invalid_inn` at the 3-digit INN "123". -/
theorem get_premium_data_invalid_inn_witness :
    get_premium_data env0 {} "123" = (none, {}, []) :=
  get_premium_data_invalid_inn env0 {} "123" (Or.inr (by decide))

/-- C4 — session restore refuses a persisted blob that is older than the
128-hour threshold or that was recorded under a different credential email:
it returns `False` and leaves the state (in particular `is_logged_in`)
untouched; and from a logged-out state, a subsequent `login` can only return
`True` by actually re-authenticating (its trace contains the credential
POST). -/
theorem load_session_rejects_stale_or_foreign (b : SessionBlob) (now : Int)
    (email : String) (st : PState) (env : Env)
    (hst : st.is_logged_in = false)
    (hbad : now - b.timestamp > SESSION_MAX_AGE_HOURS * 3600 ∨ b.email ≠ email) :
    load_session (some b) now email st = (false, st) ∧
      ((login env st false).1 = true →
        Effect.post BASE_URL ∈ (login env st false).2.2) := by
  constructor
  · simp only [load_session]
    by_cases hage : now - b.timestamp > SESSION_MAX_AGE_HOURS * 3600
    · rw [if_pos hage]
    · rcases hbad with hbad | hbad
      · exact absurd hbad hage
      · rw [if_neg hage, if_pos hbad]
  · intro hsucc
    unfold login at hsucc ⊢
    rw [if_neg (by simp [hst])] at hsucc ⊢
    by_cases hcred : env.email = "" ∨ env.password = ""
    · rw [if_pos hcred] at hsucc
      cases hsucc
    · rw [if_neg hcred] at hsucc ⊢
      cases hf : env.fetch BASE_URL with
      | none =>
        rw [hf] at hsucc
        simp at hsucc
      | some html =>
        rw [hf] at hsucc
        cases hp : env.postLogin BASE_URL with
        | none =>
          rw [hp] at hsucc
          simp at hsucc
        | some body =>
          rw [hp] at hsucc
          by_cases hm : hasLoginMarker body = true
          · simp [hm]
          · simp [hm] at hsucc

/-- Witness for `load_session_rejects_stale_or_foreign`: a blob captured at
time 0 tested one second past the 128-hour threshold. -/
theorem load_session_rejects_witness :
    load_session (some ⟨[], 0, "a"⟩) (128 * 3600 + 1) "a" {} = (false, {}) ∧
      ((login env0 {} false).1 = true →
        Effect.post BASE_URL ∈ (login env0 {} false).2.2) :=
  load_session_rejects_stale_or_foreign ⟨[], 0, "a"⟩ (128 * 3600 + 1) "a" {} env0
    (by decide) (by decide)

/-- The `[:\s]` class of the revenue patterns. -/
def isColonSpace (c : Char) : Bool := c = ':' || pyIsSpace c

/-- The `[\d\s,\.]` class of the revenue capture group. -/
def inMoneyClass (c : Char) : Bool :=
  c.isDigit || pyIsSpace c || c = ',' || c = '.'

/-- Case-insensitive literal consumption (regex literal under `re.I`),
returning the consumed original-case text and the remainder. -/
def takeLit (lit : List Char) (s : List Char) :
    Option (List Char × List Char) :=
  if (s.take lit.length).map ruLower = lit then
    some (s.take lit.length, s.drop lit.length)
  else none

/-- `(?:млн|тыс|млрд)?` — the first alternative that matches wins; returns
the consumed text (possibly empty) and the remainder. -/
def takeUnit (s : List Char) : List Char × List Char :=
  match takeLit "млн".toList s with
  | some r => r
  | none =>
    match takeLit "тыс".toList s with
    | some r => r
    | none =>
      match takeLit "млрд".toList s with
      | some r => r
      | none => ([], s)

/-- `\.?`. -/
def takeDot : List Char → List Char × List Char
  | '.' :: rest => (['.'], rest)
  | s => ([], s)

/-- `(?:руб|₽)?`. -/
def takeRub (s : List Char) : List Char × List Char :=
  match takeLit "руб".toList s with
  | some r => r
  | none =>
    match takeLit "₽".toList s with
    | some r => r
    | none => ([], s)

/-- The capture group `([\d\s,\.]+\s*(?:млн|тыс|млрд)?\.?\s*(?:руб|₽)?)` of
both revenue patterns (scraper.py lines 297-300): a non-empty greedy run of
the money class, then greedy optional whitespace, unit word, dot, whitespace
and currency word — none of which can fail, so no backtracking occurs inside
the group. -/
def moneyGroup (s : List Char) : Option (List Char) :=
  let g1 := s.takeWhile inMoneyClass
  if g1 = [] then none
  else
    let r1 := s.dropWhile inMoneyClass
    let s1 := r1.takeWhile pyIsSpace
    let r2 := r1.dropWhile pyIsSpace
    let u := (takeUnit r2).1
    let r3 := (takeUnit r2).2
    let d := (takeDot r3).1
    let r4 := (takeDot r3).2
    let s2 := r4.takeWhile pyIsSpace
    let r5 := r4.dropWhile pyIsSpace
    some (g1 ++ s1 ++ u ++ d ++ s2 ++ (takeRub r5).1)

/-- Backtracking over the greedy `[:\s]*` separator: the maximal munch is
tried first, then separator characters are given back one at a time (from
the right) until the capture group matches. -/
def tryMoney : List Char → List Char → Option (List Char)
  | revSep, rest =>
    match moneyGroup rest with
    | some g => some g
    | none =>
      match revSep with
      | [] => none
      | c :: revSep2 => tryMoney revSep2 (c :: rest)

/-- Match of the year-specific pattern
`Выручка за \d{4}[:\s]*(<money group>)` (under `re.I`) anchored at the head
of `s`, returning the capture group. -/
def matchYearAt (s : List Char) : Option (List Char) :=
  match takeLit "выручка за ".toList s with
  | none => none
  | some (_, r1) =>
    if (r1.take 4).length = 4 ∧ (r1.take 4).all Char.isDigit then
      let r2 := r1.drop 4
      tryMoney (r2.takeWhile isColonSpace).reverse (r2.dropWhile isColonSpace)
    else none

/-- `re.search` of the year-specific revenue pattern: leftmost match. -/
def searchYearPattern : List Char → Option (List Char)
  | [] => none
  | c :: rest =>
    match matchYearAt (c :: rest) with
    | some g => some g
    | none => searchYearPattern rest

/-- Match of the generic fallback pattern `Выручка[:\s]*(<money group>)`
anchored at the head of `s`. -/
def matchGenericAt (s : List Char) : Option (List Char) :=
  match takeLit "выручка".toList s with
  | none => none
  | some (_, r1) =>
    tryMoney (r1.takeWhile isColonSpace).reverse (r1.dropWhile isColonSpace)

/-- `re.search` of the generic fallback revenue pattern. -/
def searchGenericPattern : List Char → Option (List Char)
  | [] => none
  | c :: rest =>
    match matchGenericAt (c :: rest) with
    | some g => some g
    | none => searchGenericPattern rest

/-- Python `str.strip()` (ASCII whitespace). -/
def pyStrip (s : List Char) : List Char :=
  ((s.dropWhile pyIsSpace).reverse.dropWhile pyIsSpace).reverse

/-- The priority-ordered fallback loop of `_parse_premium_fields`
(scraper.py lines 301-305): the first pattern whose match has a non-empty
stripped capture sets the field and `break`s; a pattern that does not match,
or whose stripped capture is empty (falsy), falls through to the next one. -/
def applyPatternChain : List (List Char → Option (List Char)) → List Char →
    Option (List Char)
  | [], _ => none
  | p :: ps, text =>
    match p text with
    | some g => if pyStrip g ≠ [] then some (pyStrip g) else applyPatternChain ps text
    | none => applyPatternChain ps text

/-- `revenue_patterns` (scraper.py lines 297-300): year-specific first,
generic fallback second. -/
def revenue_patterns : List (List Char → Option (List Char)) :=
  [searchYearPattern, searchGenericPattern]

/-- The revenue value assigned by `_parse_premium_fields` (`none` = the
field keeps its default empty value). -/
def revenueField (text : List Char) : Option (List Char) :=
  applyPatternChain revenue_patterns text

/-- The document text of the C8 example. -/
def revenueDoc : List Char := "Выручка за 2023: 12 500 тыс. руб.".toList

/-- In a two-pattern fallback chain, a first pattern that matches with a
non-empty stripped capture decides the field and the second pattern is
never consulted. -/
theorem applyPatternChain_first_wins (p1 p2 : List Char → Option (List Char))
    (text g : List Char) (h : p1 text = some g) (hg : pyStrip g ≠ []) :
    applyPatternChain [p1, p2] text = some (pyStrip g) := by
  simp only [applyPatternChain, h]
  rw [if_pos hg]

/-- C8 counterexample — on the example document the captured revenue is
"12 500 тыс. руб" (the capture group ends after `руб`; the document's final
period is not part of the match), which differs from the claimed value
"12 500 тыс. руб.". -/
theorem revenue_value_lacks_trailing_dot :
    revenueField revenueDoc = some "12 500 тыс. руб".toList ∧
      "12 500 тыс. руб".toList ≠ "12 500 тыс. руб.".toList := by
  constructor
  · decide
  · decide

/-- C8 (amended) — on the example document the year-specific pattern matches
with capture "12 500 тыс. руб" (without the document's trailing period), the
revenue field is set to exactly that value, and the generic fallback is
skipped: whatever the second pattern of the chain would return, the result
is already decided by the first. -/
theorem revenue_first_pattern_short_circuit :
    searchYearPattern revenueDoc = some "12 500 тыс. руб".toList ∧
      revenueField revenueDoc = some "12 500 тыс. руб".toList ∧
      ∀ p2, applyPatternChain [searchYearPattern, p2] revenueDoc =
        some "12 500 тыс. руб".toList := by
  refine ⟨by decide, by decide, ?_⟩
  intro p2
  have h : searchYearPattern revenueDoc = some "12 500 тыс. руб".toList := by decide
  have hs : pyStrip "12 500 тыс. руб".toList = "12 500 тыс. руб".toList := by decide
  have := applyPatternChain_first_wins searchYearPattern p2 revenueDoc
    "12 500 тыс. руб".toList h (by rw [hs]; decide)
  rw [this, hs]
